import Mathlib

/-!
Verification of the GymApp plan/exercise store (src/src/App.tsx, with the
step-reorder variant moveExerciseByOffset from the earlier iteration kept in
src/unnamed/part_001).

Modelling conventions: weights are rationals (the app works with one-decimal
kilogram values), set counts are integers, identifiers and labels are strings.
Fresh identifiers and timestamps (Date.now based in the source) are passed in
as parameters.  `Number.parseFloat` results are modelled as already-parsed
rationals; the NaN guard therefore disappears and the negative guard stays
explicit.
-/

/-- Exercise record, mirroring the `Exercise` type of App.tsx. -/
structure Exercise where
  id : String
  name : String
  currentWeight : ℚ
  previousWeight : Option ℚ
  bestWeight : ℚ
  completed : Bool
  notes : String
  targetSets : ℤ
  completedSets : ℤ
  deriving DecidableEq

/-- TrainingPlan record of App.tsx. -/
structure TrainingPlan where
  id : String
  name : String
  exercises : List Exercise
  deriving DecidableEq

/-- HistoryExercise record of App.tsx: one frozen snapshot line. -/
structure HistoryExercise where
  name : String
  weight : ℚ
  completedSets : ℤ
  targetSets : ℤ
  isPr : Bool
  deriving DecidableEq

/-- TrainingHistoryEntry record of App.tsx. -/
structure TrainingHistoryEntry where
  id : String
  dateIso : String
  planId : String
  planName : String
  exercises : List HistoryExercise
  deriving DecidableEq

/-- Rounding to one decimal place, modelling `Number(x.toFixed(1))`:
round half toward positive infinity at the first decimal. -/
def round1 (x : ℚ) : ℚ := (⌊10 * x + 1 / 2⌋ : ℤ) / 10

/-- clampWeight of App.tsx: `Math.max(0, Math.min(300, value))`. -/
def clampWeight (value : ℚ) : ℚ := max 0 (min 300 value)

/-- clampInt of App.tsx: `Math.max(min, Math.min(max, value))`. -/
def clampInt (value lo hi : ℤ) : ℤ := max lo (min hi value)

/-- Executable model of JavaScript String.prototype.trim: strip leading and
trailing whitespace. -/
def trimString (s : String) : String :=
  String.mk (((s.data.dropWhile Char.isWhitespace).reverse.dropWhile Char.isWhitespace).reverse)

/-- Partial exercise record as read back from storage; every field that
`normalizeExercise` defaults is optional. -/
structure StoredExercise where
  id : String
  name : String
  currentWeight : Option ℚ
  previousWeight : Option ℚ
  bestWeight : Option ℚ
  completed : Option Bool
  notes : Option String
  targetSets : Option ℤ
  completedSets : Option ℤ
  deriving DecidableEq

/-- normalizeExercise of App.tsx. -/
def normalizeExercise (input : StoredExercise) : Exercise :=
  let currentWeight := input.currentWeight.getD 0
  let targetSets := clampInt (input.targetSets.getD 3) 1 12
  let completedSets := clampInt (input.completedSets.getD 0) 0 targetSets
  { id := input.id
    name := input.name
    currentWeight := currentWeight
    previousWeight := input.previousWeight
    bestWeight := input.bestWeight.getD currentWeight
    completed := input.completed.getD (decide (targetSets ≤ completedSets))
    notes := input.notes.getD ""
    targetSets := targetSets
    completedSets := completedSets }

/-- Shared shape of every per-plan update in App.tsx:
`previous.map(plan => plan.id === activePlan.id ? {...plan, exercises: f(plan.exercises)} : plan)`. -/
def mapPlan (activePlanId : String) (f : List Exercise → List Exercise)
    (plans : List TrainingPlan) : List TrainingPlan :=
  plans.map fun plan =>
    if plan.id = activePlanId then { plan with exercises := f plan.exercises } else plan

/-- Shared shape of every per-exercise update in App.tsx:
`exercises.map(exercise => exercise.id === exerciseId ? f exercise : exercise)`. -/
def mapEx (exerciseId : String) (f : Exercise → Exercise)
    (exercises : List Exercise) : List Exercise :=
  exercises.map fun exercise => if exercise.id = exerciseId then f exercise else exercise

/-- Body of the weight update shared by updateExerciseWeight and
changeExerciseByDelta in App.tsx: no-op when the next weight equals the
current one, otherwise shift current into previous, install the next weight,
raise the best weight and clear the completed flag. -/
def applyWeight (nextWeight : ℚ) (exercise : Exercise) : Exercise :=
  if exercise.currentWeight = nextWeight then exercise
  else
    { exercise with
      previousWeight := some exercise.currentWeight
      currentWeight := nextWeight
      bestWeight := max exercise.bestWeight nextWeight
      completed := false }

/-- updateExerciseWeight of App.tsx (the spec's setExerciseWeight). -/
def updateExerciseWeight (activePlanId exerciseId : String) (value : ℚ)
    (plans : List TrainingPlan) : List TrainingPlan :=
  if value < 0 then plans
  else mapPlan activePlanId (mapEx exerciseId (applyWeight (round1 value))) plans

/-- changeExerciseByDelta of App.tsx (the spec's adjustExerciseWeight). -/
def changeExerciseByDelta (activePlanId exerciseId : String) (delta : ℚ)
    (plans : List TrainingPlan) : List TrainingPlan :=
  mapPlan activePlanId
    (mapEx exerciseId fun exercise =>
      applyWeight (clampWeight (round1 (exercise.currentWeight + delta))) exercise) plans

/-- setExerciseCompleted of App.tsx. -/
def setExerciseCompleted (activePlanId exerciseId : String) (completed : Bool)
    (plans : List TrainingPlan) : List TrainingPlan :=
  mapPlan activePlanId
    (mapEx exerciseId fun exercise =>
      { exercise with
        completed := completed
        completedSets := if completed then exercise.targetSets else 0 }) plans

/-- setExerciseSets of App.tsx (the spec's setCompletedSets). -/
def setExerciseSets (activePlanId exerciseId : String) (nextCompletedSets : ℤ)
    (plans : List TrainingPlan) : List TrainingPlan :=
  mapPlan activePlanId
    (mapEx exerciseId fun exercise =>
      let clamped := clampInt nextCompletedSets 0 exercise.targetSets
      { exercise with
        completedSets := clamped
        completed := decide (exercise.targetSets ≤ clamped) }) plans

/-- Patch argument of updateExerciseMeta. -/
structure ExercisePatch where
  name : Option String
  notes : Option String
  targetSets : Option ℤ
  deriving DecidableEq

/-- updateExerciseMeta of App.tsx.  JavaScript truthiness on
`patch.targetSets ? ... : ...` makes an absent or zero targetSets keep the
old value. -/
def updateExerciseMeta (activePlanId exerciseId : String) (patch : ExercisePatch)
    (plans : List TrainingPlan) : List TrainingPlan :=
  mapPlan activePlanId
    (mapEx exerciseId fun exercise =>
      let targetSets :=
        match patch.targetSets with
        | some t => if t = 0 then exercise.targetSets else clampInt t 1 12
        | none => exercise.targetSets
      { exercise with
        name := patch.name.getD exercise.name
        notes := patch.notes.getD exercise.notes
        targetSets := targetSets
        completedSets := clampInt exercise.completedSets 0 targetSets
        completed := decide (targetSets ≤ clampInt exercise.completedSets 0 targetSets) }) plans

/-- deleteExercise of App.tsx. -/
def deleteExercise (activePlanId exerciseId : String)
    (plans : List TrainingPlan) : List TrainingPlan :=
  mapPlan activePlanId
    (fun exercises => exercises.filter fun exercise => decide (¬ exercise.id = exerciseId)) plans

/-- addExercise of App.tsx; the fresh exercise id is a parameter. -/
def addExercise (activePlanId newId : String) (rawName : String) (parsedWeight : ℚ)
    (plans : List TrainingPlan) : List TrainingPlan :=
  let name := trimString rawName
  if name = "" ∨ parsedWeight < 0 then plans
  else
    let normalizedWeight := round1 parsedWeight
    mapPlan activePlanId
      (fun exercises =>
        exercises ++
          [{ id := newId
             name := name
             currentWeight := normalizedWeight
             previousWeight := none
             bestWeight := normalizedWeight
             completed := false
             notes := ""
             targetSets := 3
             completedSets := 0 }]) plans

/-- Body of moveExercise's per-plan update (App.tsx lines 518-532);
`findIndex` returning -1 is modelled with `findIdx?`. -/
def moveInList (dragId targetId : String) (exercises : List Exercise) : List Exercise :=
  match exercises.findIdx? (fun e => decide (e.id = dragId)),
      exercises.findIdx? (fun e => decide (e.id = targetId)) with
  | some fromIndex, some toIndex =>
    if fromIndex = toIndex then exercises
    else
      match exercises[fromIndex]? with
      | some moved => (exercises.eraseIdx fromIndex).insertIdx toIndex moved
      | none => exercises
  | _, _ => exercises

/-- moveExercise of App.tsx (drag-and-drop reorder). -/
def moveExercise (activePlanId dragId targetId : String)
    (plans : List TrainingPlan) : List TrainingPlan :=
  if dragId = targetId then plans
  else mapPlan activePlanId (moveInList dragId targetId) plans

/-- Body of moveExerciseByOffset's per-plan update
(src/unnamed/part_001 lines 1136-1160). -/
def moveByOffsetInList (exerciseId : String) (offset : ℤ)
    (exercises : List Exercise) : List Exercise :=
  match exercises.findIdx? (fun e => decide (e.id = exerciseId)) with
  | none => exercises
  | some index =>
    let target : ℤ := (index : ℤ) + offset
    if target < 0 ∨ (exercises.length : ℤ) ≤ target then exercises
    else
      match exercises[index]? with
      | some moved => (exercises.eraseIdx index).insertIdx target.toNat moved
      | none => exercises

/-- moveExerciseByOffset of the step-reorder variant (src/unnamed/part_001). -/
def moveExerciseByOffset (activePlanId exerciseId : String) (offset : ℤ)
    (plans : List TrainingPlan) : List TrainingPlan :=
  mapPlan activePlanId (moveByOffsetInList exerciseId offset) plans

/-- createPlan of App.tsx; the fresh plan id is a parameter. -/
def createPlan (newId : String) (rawName : String)
    (plans : List TrainingPlan) : List TrainingPlan :=
  let name := trimString rawName
  if name = "" then plans
  else { id := newId, name := name, exercises := [] } :: plans

/-- renameActivePlan of App.tsx (the spec's renamePlan). -/
def renameActivePlan (activePlanId : String) (rawName : String)
    (plans : List TrainingPlan) : List TrainingPlan :=
  let nextName := trimString rawName
  if nextName = "" then plans
  else
    plans.map fun plan =>
      if plan.id = activePlanId then { plan with name := nextName } else plan

/-- deleteActivePlan of App.tsx (the spec's deletePlan). -/
def deleteActivePlan (activePlanId : String)
    (plans : List TrainingPlan) : List TrainingPlan :=
  plans.filter fun plan => decide (¬ plan.id = activePlanId)

/-- PR flag computed in finishTraining (App.tsx lines 552-555):
`previousWeight !== null && currentWeight >= bestWeight && currentWeight > previousWeight`. -/
def isPr (exercise : Exercise) : Bool :=
  match exercise.previousWeight with
  | none => false
  | some prev =>
    decide (exercise.bestWeight ≤ exercise.currentWeight) &&
      decide (prev < exercise.currentWeight)

/-- Frozen snapshot of one exercise recorded in a history entry
(App.tsx lines 547-556). -/
def snapshotExercise (exercise : Exercise) : HistoryExercise :=
  { name := exercise.name
    weight := exercise.currentWeight
    completedSets := exercise.completedSets
    targetSets := exercise.targetSets
    isPr := isPr exercise }

/-- Whole store state: the two persisted collections. -/
structure Store where
  plans : List TrainingPlan
  history : List TrainingHistoryEntry
  deriving DecidableEq

/-- finishTraining of App.tsx (the spec's finishWorkout); the fresh entry id
and the finish timestamp are parameters.  History is truncated with
`[entry, ...previous].slice(0, 40)`. -/
def finishTraining (activePlanId newId dateIso : String) (s : Store) : Store :=
  match s.plans.find? (fun plan => decide (plan.id = activePlanId)) with
  | none => s
  | some activePlan =>
    if activePlan.exercises.length = 0 then s
    else
      let entry : TrainingHistoryEntry :=
        { id := newId
          dateIso := dateIso
          planId := activePlan.id
          planName := activePlan.name
          exercises := activePlan.exercises.map snapshotExercise }
      { plans :=
          mapPlan activePlan.id
            (fun exercises =>
              exercises.map fun exercise =>
                { exercise with completed := false, completedSets := 0 }) s.plans
        history := (entry :: s.history).take 40 }

/-- Every store operation of the core, with fresh identifiers and timestamps
as explicit parameters. -/
inductive Op where
  | createPlan (newId rawName : String)
  | renamePlan (activePlanId rawName : String)
  | deletePlan (activePlanId : String)
  | addExercise (activePlanId newId rawName : String) (parsedWeight : ℚ)
  | setWeight (activePlanId exerciseId : String) (value : ℚ)
  | adjustWeight (activePlanId exerciseId : String) (delta : ℚ)
  | setCompleted (activePlanId exerciseId : String) (completed : Bool)
  | setSets (activePlanId exerciseId : String) (nextCompletedSets : ℤ)
  | updateMeta (activePlanId exerciseId : String) (patch : ExercisePatch)
  | deleteExercise (activePlanId exerciseId : String)
  | moveExercise (activePlanId dragId targetId : String)
  | moveByOffset (activePlanId exerciseId : String) (offset : ℤ)
  | finish (activePlanId newId dateIso : String)
  deriving DecidableEq

/-- Interpretation of one operation on the store.  Plan operations leave the
history collection untouched; only finishing a workout writes to it. -/
def applyOp (op : Op) (s : Store) : Store :=
  match op with
  | .createPlan newId rawName => { s with plans := createPlan newId rawName s.plans }
  | .renamePlan activePlanId rawName =>
    { s with plans := renameActivePlan activePlanId rawName s.plans }
  | .deletePlan activePlanId => { s with plans := deleteActivePlan activePlanId s.plans }
  | .addExercise activePlanId newId rawName parsedWeight =>
    { s with plans := addExercise activePlanId newId rawName parsedWeight s.plans }
  | .setWeight activePlanId exerciseId value =>
    { s with plans := updateExerciseWeight activePlanId exerciseId value s.plans }
  | .adjustWeight activePlanId exerciseId delta =>
    { s with plans := changeExerciseByDelta activePlanId exerciseId delta s.plans }
  | .setCompleted activePlanId exerciseId completed =>
    { s with plans := setExerciseCompleted activePlanId exerciseId completed s.plans }
  | .setSets activePlanId exerciseId nextCompletedSets =>
    { s with plans := setExerciseSets activePlanId exerciseId nextCompletedSets s.plans }
  | .updateMeta activePlanId exerciseId patch =>
    { s with plans := updateExerciseMeta activePlanId exerciseId patch s.plans }
  | .deleteExercise activePlanId exerciseId =>
    { s with plans := deleteExercise activePlanId exerciseId s.plans }
  | .moveExercise activePlanId dragId targetId =>
    { s with plans := moveExercise activePlanId dragId targetId s.plans }
  | .moveByOffset activePlanId exerciseId offset =>
    { s with plans := moveExerciseByOffset activePlanId exerciseId offset s.plans }
  | .finish activePlanId newId dateIso => finishTraining activePlanId newId dateIso s

/-- Set-count invariant on one exercise: `0 <= completedSets <= targetSets`. -/
def ExInv (exercise : Exercise) : Prop :=
  0 ≤ exercise.completedSets ∧ exercise.completedSets ≤ exercise.targetSets

/-- Set-count invariant over the whole store. -/
def StoreInv (s : Store) : Prop :=
  ∀ plan ∈ s.plans, ∀ exercise ∈ plan.exercises, ExInv exercise

instance : DecidablePred ExInv := fun e => by unfold ExInv; infer_instance

instance (s : Store) : Decidable (StoreInv s) := by unfold StoreInv; infer_instance

/-- Weight invariant on one exercise: the best weight dominates the current one. -/
def ExBest (exercise : Exercise) : Prop :=
  exercise.currentWeight ≤ exercise.bestWeight

/-- Weight invariant over the whole store. -/
def StoreBest (s : Store) : Prop :=
  ∀ plan ∈ s.plans, ∀ exercise ∈ plan.exercises, ExBest exercise

instance : DecidablePred ExBest := fun e => by unfold ExBest; infer_instance

instance (s : Store) : Decidable (StoreBest s) := by unfold StoreBest; infer_instance

/-! ### General lemmas about the shared update shapes -/

theorem mapPlan_length (activePlanId : String) (f : List Exercise → List Exercise)
    (plans : List TrainingPlan) : (mapPlan activePlanId f plans).length = plans.length := by
  simp [mapPlan]

theorem mapPlan_getElem? (activePlanId : String) (f : List Exercise → List Exercise)
    (plans : List TrainingPlan) (i : ℕ) :
    (mapPlan activePlanId f plans)[i]? =
      plans[i]?.map fun plan =>
        if plan.id = activePlanId then { plan with exercises := f plan.exercises } else plan := by
  simp [mapPlan, List.getElem?_map]

theorem mapEx_length (exerciseId : String) (f : Exercise → Exercise)
    (exercises : List Exercise) : (mapEx exerciseId f exercises).length = exercises.length := by
  simp [mapEx]

theorem mapEx_getElem? (exerciseId : String) (f : Exercise → Exercise)
    (exercises : List Exercise) (j : ℕ) :
    (mapEx exerciseId f exercises)[j]? =
      exercises[j]?.map fun e => if e.id = exerciseId then f e else e := by
  simp [mapEx, List.getElem?_map]

theorem mapEx_fixpoint (exerciseId : String) (f : Exercise → Exercise)
    (hid : ∀ e, (f e).id = e.id) (hf : ∀ e, f (f e) = f e) (l : List Exercise) :
    mapEx exerciseId f (mapEx exerciseId f l) = mapEx exerciseId f l := by
  unfold mapEx
  rw [List.map_map]
  apply List.map_congr_left
  intro e _
  by_cases h : e.id = exerciseId
  · simp only [Function.comp, h, if_pos, hid e, hf e]
  · simp only [Function.comp, h, if_neg, if_false]

theorem mapEx_filter_ne (exerciseId : String) (f : Exercise → Exercise)
    (hid : ∀ e, (f e).id = e.id) (l : List Exercise) :
    (mapEx exerciseId f l).filter (fun e => decide (¬ e.id = exerciseId)) =
      l.filter (fun e => decide (¬ e.id = exerciseId)) := by
  induction l with
  | nil => rfl
  | cons e t ih =>
    by_cases h : e.id = exerciseId
    · have hfe : (f e).id = exerciseId := by rw [hid e]; exact h
      simp [mapEx, List.filter_cons, h, hfe] at *
      exact ih
    · simp [mapEx, List.filter_cons, h] at *
      exact ih

theorem cons_eraseIdx_perm {α : Type} (l : List α) (i : ℕ) (x : α) (h : l[i]? = some x) :
    (x :: l.eraseIdx i).Perm l := by
  obtain ⟨hi, hx⟩ := List.getElem?_eq_some.mp h
  have step2 : (x :: l.eraseIdx i).Perm (l.take i ++ x :: l.drop (i + 1)) := by
    rw [List.eraseIdx_eq_take_drop_succ]
    exact List.perm_middle.symm
  have step3 : l.take i ++ x :: l.drop (i + 1) = l := by
    rw [← hx, List.getElem_cons_drop l i hi, List.take_append_drop]
  rw [step3] at step2
  exact step2

theorem insertIdx_eraseIdx_perm {α : Type} (l : List α) (i j : ℕ) (x : α)
    (h : l[i]? = some x) (hj : j ≤ l.length - 1) :
    ((l.eraseIdx i).insertIdx j x).Perm l := by
  obtain ⟨hi, _⟩ := List.getElem?_eq_some.mp h
  have hlen : (l.eraseIdx i).length = l.length - 1 := by
    simp [List.length_eraseIdx, hi]
  have h1 : ((l.eraseIdx i).insertIdx j x).Perm (x :: l.eraseIdx i) :=
    List.perm_insertIdx x _ (by rw [hlen]; exact hj)
  exact h1.trans (cons_eraseIdx_perm l i x h)

theorem insertIdx_getElem?_self {α : Type} (l : List α) (j : ℕ) (x : α) (hj : j ≤ l.length) :
    (l.insertIdx j x)[j]? = some x := by
  have hlt : j < (l.insertIdx j x).length := by
    rw [List.length_insertIdx j l hj]
    omega
  rw [List.getElem?_eq_getElem hlt]
  exact congrArg some (List.getElem_insertIdx_self l x j hj)

theorem mapPlan_mapEx_target (activePlanId exerciseId : String) (f : Exercise → Exercise)
    (plans : List TrainingPlan) (i j : ℕ) (p : TrainingPlan) (e : Exercise)
    (hp : plans[i]? = some p) (hpid : p.id = activePlanId)
    (he : p.exercises[j]? = some e) (heid : e.id = exerciseId) :
    ∃ p', (mapPlan activePlanId (mapEx exerciseId f) plans)[i]? = some p' ∧
      p'.id = p.id ∧ p'.name = p.name ∧ p'.exercises[j]? = some (f e) := by
  have h1 : (mapPlan activePlanId (mapEx exerciseId f) plans)[i]? =
      some { p with exercises := mapEx exerciseId f p.exercises } := by
    rw [mapPlan_getElem?, hp]
    simp [hpid]
  have h2 : (mapEx exerciseId f p.exercises)[j]? = some (f e) := by
    rw [mapEx_getElem?, he]
    simp [heid]
  exact ⟨_, h1, rfl, rfl, h2⟩

theorem applyWeight_id (nextWeight : ℚ) (e : Exercise) :
    (applyWeight nextWeight e).id = e.id := by
  by_cases h : e.currentWeight = nextWeight <;> simp [applyWeight, h]

theorem applyWeight_idem (nextWeight : ℚ) (e : Exercise) :
    applyWeight nextWeight (applyWeight nextWeight e) = applyWeight nextWeight e := by
  by_cases h : e.currentWeight = nextWeight <;> simp [applyWeight, h]

theorem mapPlan_fixpoint (activePlanId : String) (f : List Exercise → List Exercise)
    (hff : ∀ l, f (f l) = f l) (plans : List TrainingPlan) :
    mapPlan activePlanId f (mapPlan activePlanId f plans) = mapPlan activePlanId f plans := by
  unfold mapPlan
  rw [List.map_map]
  apply List.map_congr_left
  intro p _
  by_cases h : p.id = activePlanId <;> simp [Function.comp, h, hff]

/-- C1: for every exercise in the active plan, a setExerciseWeight call with a
non-negative value whose rounded result differs from currentWeight, and an
adjustExerciseWeight call whose clamped result differs from currentWeight,
produce bestWeight' = max(bestWeight, currentWeight') and previousWeight' =
pre-change currentWeight; when the new value equals the current weight the
exercise is returned unchanged. -/
theorem C1_valid_weight_change_best_and_previous
    (plans : List TrainingPlan) (activePlanId exerciseId : String) (w delta : ℚ)
    (hw : 0 ≤ w) (i j : ℕ) (p : TrainingPlan) (e : Exercise)
    (hp : plans[i]? = some p) (hpid : p.id = activePlanId)
    (he : p.exercises[j]? = some e) (heid : e.id = exerciseId) :
    (∃ p', (updateExerciseWeight activePlanId exerciseId w plans)[i]? = some p' ∧
      (round1 w = e.currentWeight → p'.exercises[j]? = some e) ∧
      (round1 w ≠ e.currentWeight → ∃ e', p'.exercises[j]? = some e' ∧
        e'.previousWeight = some e.currentWeight ∧
        e'.currentWeight = round1 w ∧
        e'.bestWeight = max e.bestWeight e'.currentWeight)) ∧
    (∃ p', (changeExerciseByDelta activePlanId exerciseId delta plans)[i]? = some p' ∧
      (clampWeight (round1 (e.currentWeight + delta)) = e.currentWeight →
        p'.exercises[j]? = some e) ∧
      (clampWeight (round1 (e.currentWeight + delta)) ≠ e.currentWeight → ∃ e',
        p'.exercises[j]? = some e' ∧
        e'.previousWeight = some e.currentWeight ∧
        e'.currentWeight = clampWeight (round1 (e.currentWeight + delta)) ∧
        e'.bestWeight = max e.bestWeight e'.currentWeight)) := by
  constructor
  · obtain ⟨p', h1, -, -, h2⟩ :=
      mapPlan_mapEx_target activePlanId exerciseId (applyWeight (round1 w))
        plans i j p e hp hpid he heid
    refine ⟨p', ?_, ?_, ?_⟩
    · rw [updateExerciseWeight, if_neg (not_lt.mpr hw)]
      exact h1
    · intro hEq
      rw [h2]
      simp [applyWeight, hEq.symm]
    · intro hne
      have hne' : ¬ e.currentWeight = round1 w := fun h => hne h.symm
      refine ⟨applyWeight (round1 w) e, h2, ?_, ?_, ?_⟩ <;>
        simp [applyWeight, hne']
  · obtain ⟨p', h1, -, -, h2⟩ :=
      mapPlan_mapEx_target activePlanId exerciseId
        (fun exercise =>
          applyWeight (clampWeight (round1 (exercise.currentWeight + delta))) exercise)
        plans i j p e hp hpid he heid
    refine ⟨p', ?_, ?_, ?_⟩
    · rw [changeExerciseByDelta]
      exact h1
    · intro hEq
      rw [h2]
      have : applyWeight (clampWeight (round1 (e.currentWeight + delta))) e = e := by
        simp only [applyWeight]
        rw [if_pos hEq.symm]
      rw [this]
    · intro hne
      have hne' : ¬ e.currentWeight = clampWeight (round1 (e.currentWeight + delta)) :=
        fun h => hne h.symm
      refine ⟨_, h2, ?_, ?_, ?_⟩ <;>
        simp [applyWeight, hne']

/-- C1 witness: a concrete valid weight change (20 to 25 on a one-exercise
plan) with the properties evaluated. -/
theorem C1_valid_weight_change_best_and_previous_witness :
    ∃ p', (updateExerciseWeight "p1" "e1" 25
        [⟨"p1", "Push", [⟨"e1", "Bench", 20, none, 20, false, "", 3, 2⟩]⟩])[0]? = some p' ∧
      (round1 25 = 20 → p'.exercises[0]? =
        some ⟨"e1", "Bench", 20, none, 20, false, "", 3, 2⟩) ∧
      (round1 25 ≠ 20 → ∃ e', p'.exercises[0]? = some e' ∧
        e'.previousWeight = some 20 ∧
        e'.currentWeight = round1 25 ∧
        e'.bestWeight = max 20 e'.currentWeight) :=
  (C1_valid_weight_change_best_and_previous
    [⟨"p1", "Push", [⟨"e1", "Bench", 20, none, 20, false, "", 3, 2⟩]⟩]
    "p1" "e1" 25 0 (by norm_num) 0 0
    ⟨"p1", "Push", [⟨"e1", "Bench", 20, none, 20, false, "", 3, 2⟩]⟩
    ⟨"e1", "Bench", 20, none, 20, false, "", 3, 2⟩
    rfl rfl rfl rfl).1

/-- C2 (amended): when setExerciseWeight applies a non-negative value whose
rounded result differs from the current weight, it shifts the old
currentWeight into previousWeight, installs the new rounded value as
currentWeight, raises bestWeight to the max of itself and the new value, and
clears the completed flag, while leaving completedSets (and id, name, notes,
targetSets) unchanged; it does not reset completedSets to 0. -/
theorem C2_setWeight_shift_fields
    (plans : List TrainingPlan) (activePlanId exerciseId : String) (w : ℚ)
    (hw : 0 ≤ w) (i j : ℕ) (p : TrainingPlan) (e : Exercise)
    (hp : plans[i]? = some p) (hpid : p.id = activePlanId)
    (he : p.exercises[j]? = some e) (heid : e.id = exerciseId)
    (hne : round1 w ≠ e.currentWeight) :
    ∃ p', (updateExerciseWeight activePlanId exerciseId w plans)[i]? = some p' ∧
      p'.exercises[j]? = some
        { e with
          previousWeight := some e.currentWeight
          currentWeight := round1 w
          bestWeight := max e.bestWeight (round1 w)
          completed := false } := by
  obtain ⟨p', h1, -, -, h2⟩ :=
    mapPlan_mapEx_target activePlanId exerciseId (applyWeight (round1 w))
      plans i j p e hp hpid he heid
  refine ⟨p', ?_, ?_⟩
  · rw [updateExerciseWeight, if_neg (not_lt.mpr hw)]
    exact h1
  · rw [h2]
    have hne' : ¬ e.currentWeight = round1 w := fun h => hne h.symm
    simp [applyWeight, hne']

/-- C2 witness: the shift applied at a concrete plan, exercise and weight. -/
theorem C2_setWeight_shift_fields_witness :
    ∃ p', (updateExerciseWeight "p1" "e1" 25
        [⟨"p1", "Push", [⟨"e1", "Bench", 20, none, 20, false, "", 3, 2⟩]⟩])[0]? = some p' ∧
      p'.exercises[0]? = some
        { id := "e1", name := "Bench", currentWeight := round1 25,
          previousWeight := some 20, bestWeight := max 20 (round1 25),
          completed := false, notes := "", targetSets := 3, completedSets := 2 } :=
  C2_setWeight_shift_fields
    [⟨"p1", "Push", [⟨"e1", "Bench", 20, none, 20, false, "", 3, 2⟩]⟩]
    "p1" "e1" 25 (by norm_num) 0 0
    ⟨"p1", "Push", [⟨"e1", "Bench", 20, none, 20, false, "", 3, 2⟩]⟩
    ⟨"e1", "Bench", 20, none, 20, false, "", 3, 2⟩
    rfl rfl rfl rfl (by norm_num [round1])

/-- C2 counterexample: a valid weight change (20 to 25, with 2 of 3 sets
completed) leaves completedSets at 2; the claim's predicted post-state with
completedSets reset to 0 is refuted. -/
theorem C2_counterexample_completedSets_not_reset :
    updateExerciseWeight "p1" "e1" 25
        [⟨"p1", "Push", [⟨"e1", "Bench", 20, none, 20, false, "", 3, 2⟩]⟩] =
      [⟨"p1", "Push", [⟨"e1", "Bench", 25, some 20, 25, false, "", 3, 2⟩]⟩] ∧
    ¬ updateExerciseWeight "p1" "e1" 25
        [⟨"p1", "Push", [⟨"e1", "Bench", 20, none, 20, false, "", 3, 2⟩]⟩] =
      [⟨"p1", "Push", [⟨"e1", "Bench", 25, some 20, 25, false, "", 3, 0⟩]⟩] := by
  have h1 : round1 25 = 25 := by norm_num [round1]
  constructor
  · norm_num [updateExerciseWeight, mapPlan, mapEx, applyWeight, h1]
  · norm_num [updateExerciseWeight, mapPlan, mapEx, applyWeight, h1]

/-- C4: setExerciseWeight is idempotent: applying updateExerciseWeight twice
with the same plan id, exercise id and value yields the same plan collection
as applying it once, so the second call changes nothing (in particular it
does not disturb previousWeight). -/
theorem C4_setWeight_idempotent (activePlanId exerciseId : String) (w : ℚ)
    (plans : List TrainingPlan) :
    updateExerciseWeight activePlanId exerciseId w
        (updateExerciseWeight activePlanId exerciseId w plans) =
      updateExerciseWeight activePlanId exerciseId w plans := by
  by_cases hval : w < 0
  · simp [updateExerciseWeight, hval]
  · simp only [updateExerciseWeight, if_neg hval]
    exact mapPlan_fixpoint activePlanId _
      (mapEx_fixpoint exerciseId _ (applyWeight_id (round1 w)) (applyWeight_idem (round1 w)))
      plans

theorem moveInList_perm (dragId targetId : String) (exercises : List Exercise) :
    (moveInList dragId targetId exercises).Perm exercises := by
  unfold moveInList
  split
  · rename_i fromIndex toIndex hfrom hto
    split
    · exact List.Perm.refl _
    · rename_i hne
      split
      · rename_i moved hmoved
        obtain ⟨hto_lt, -⟩ := List.findIdx?_eq_some_iff_findIdx_eq.mp hto
        exact insertIdx_eraseIdx_perm exercises fromIndex toIndex moved hmoved
          (by omega)
      · exact List.Perm.refl _
  · exact List.Perm.refl _

theorem moveByOffsetInList_perm (exerciseId : String) (offset : ℤ)
    (exercises : List Exercise) :
    (moveByOffsetInList exerciseId offset exercises).Perm exercises := by
  unfold moveByOffsetInList
  split
  · exact List.Perm.refl _
  · rename_i index hidx
    dsimp only
    split
    · exact List.Perm.refl _
    · rename_i hbound
      push_neg at hbound
      split
      · rename_i moved hmoved
        refine insertIdx_eraseIdx_perm exercises index ((index : ℤ) + offset).toNat moved
          hmoved ?_
        obtain ⟨hidx_lt, -⟩ := List.findIdx?_eq_some_iff_findIdx_eq.mp hidx
        omega
      · exact List.Perm.refl _

theorem clampInt_lower (v lo hi : ℤ) : lo ≤ clampInt v lo hi := le_max_left lo _

theorem clampInt_upper (v lo hi : ℤ) (h : lo ≤ hi) : clampInt v lo hi ≤ hi := by
  unfold clampInt
  rw [max_le_iff]
  exact ⟨h, min_le_left hi v⟩

theorem plansInv_mapPlan (activePlanId : String) (f : List Exercise → List Exercise)
    (plans : List TrainingPlan)
    (hf : ∀ exs, (∀ e ∈ exs, ExInv e) → ∀ e ∈ f exs, ExInv e)
    (h : ∀ p ∈ plans, ∀ e ∈ p.exercises, ExInv e) :
    ∀ p ∈ mapPlan activePlanId f plans, ∀ e ∈ p.exercises, ExInv e := by
  intro plan hplan e he
  simp only [mapPlan, List.mem_map] at hplan
  obtain ⟨q, hq, rfl⟩ := hplan
  by_cases hid : q.id = activePlanId
  · rw [if_pos hid] at he
    exact hf q.exercises (h q hq) e he
  · rw [if_neg hid] at he
    exact h q hq e he

theorem mapEx_inv (exerciseId : String) (f : Exercise → Exercise)
    (hf : ∀ e, ExInv e → ExInv (f e)) (exs : List Exercise)
    (h : ∀ e ∈ exs, ExInv e) : ∀ e ∈ mapEx exerciseId f exs, ExInv e := by
  intro e' he'
  simp only [mapEx, List.mem_map] at he'
  obtain ⟨e, he, rfl⟩ := he'
  by_cases hid : e.id = exerciseId
  · simpa [hid] using hf e (h e he)
  · simpa [hid] using h e he

theorem exInv_applyWeight (nw : ℚ) (e : Exercise) (h : ExInv e) :
    ExInv (applyWeight nw e) := by
  by_cases hc : e.currentWeight = nw <;> simpa [applyWeight, hc, ExInv] using h

/-- C3: for every exercise in every plan, 0 <= completedSets <= targetSets is
preserved by every store operation, including updateExerciseMeta reducing
targetSets below the previous completedSets (which reclamps completedSets),
and it holds unconditionally for every exercise produced by normalizeExercise
when loading persisted data. -/
theorem C3_sets_invariant (op : Op) (s : Store) (h : StoreInv s) :
    StoreInv (applyOp op s) ∧
    ∀ input : StoredExercise,
      0 ≤ (normalizeExercise input).completedSets ∧
      (normalizeExercise input).completedSets ≤ (normalizeExercise input).targetSets := by
  refine ⟨?_, ?_⟩
  · cases op with
    | createPlan newId rawName =>
      intro plan hplan e he
      simp only [applyOp, createPlan] at hplan
      by_cases hname : trimString rawName = ""
      · rw [if_pos hname] at hplan
        exact h plan hplan e he
      · rw [if_neg hname] at hplan
        rcases List.mem_cons.mp hplan with hplan | hplan
        · subst hplan
          simp at he
        · exact h plan hplan e he
    | renamePlan activePlanId rawName =>
      intro plan hplan e he
      simp only [applyOp, renameActivePlan] at hplan
      by_cases hname : trimString rawName = ""
      · rw [if_pos hname] at hplan
        exact h plan hplan e he
      · rw [if_neg hname] at hplan
        simp only [List.mem_map] at hplan
        obtain ⟨q, hq, rfl⟩ := hplan
        by_cases hid : q.id = activePlanId
        · rw [if_pos hid] at he
          exact h q hq e he
        · rw [if_neg hid] at he
          exact h q hq e he
    | deletePlan activePlanId =>
      intro plan hplan e he
      simp only [applyOp, deleteActivePlan] at hplan
      exact h plan (List.mem_filter.mp hplan).1 e he
    | addExercise activePlanId newId rawName parsedWeight =>
      intro plan hplan e he
      simp only [applyOp, addExercise] at hplan
      by_cases hguard : trimString rawName = "" ∨ parsedWeight < 0
      · rw [if_pos hguard] at hplan
        exact h plan hplan e he
      · rw [if_neg hguard] at hplan
        refine plansInv_mapPlan _ _ _ ?_ h plan hplan e he
        intro exs hexs e' he'
        rcases List.mem_append.mp he' with he' | he'
        · exact hexs e' he'
        · rcases List.mem_singleton.mp he' with rfl
          exact ⟨le_refl 0, by norm_num⟩
    | setWeight activePlanId exerciseId value =>
      intro plan hplan e he
      simp only [applyOp, updateExerciseWeight] at hplan
      by_cases hval : value < 0
      · rw [if_pos hval] at hplan
        exact h plan hplan e he
      · rw [if_neg hval] at hplan
        exact plansInv_mapPlan _ _ _
          (fun exs hexs => mapEx_inv _ _ (exInv_applyWeight (round1 value)) exs hexs)
          h plan hplan e he
    | adjustWeight activePlanId exerciseId delta =>
      intro plan hplan e he
      simp only [applyOp, changeExerciseByDelta] at hplan
      exact plansInv_mapPlan _ _ _
        (fun exs hexs => mapEx_inv _ _
          (fun e' he' => exInv_applyWeight _ e' he') exs hexs)
        h plan hplan e he
    | setCompleted activePlanId exerciseId completed =>
      intro plan hplan e he
      simp only [applyOp, setExerciseCompleted] at hplan
      refine plansInv_mapPlan _ _ _
        (fun exs hexs => mapEx_inv _ _ ?_ exs hexs) h plan hplan e he
      intro e' he'
      unfold ExInv at he' ⊢
      cases completed <;> simp <;> omega
    | setSets activePlanId exerciseId nextCompletedSets =>
      intro plan hplan e he
      simp only [applyOp, setExerciseSets] at hplan
      refine plansInv_mapPlan _ _ _
        (fun exs hexs => mapEx_inv _ _ ?_ exs hexs) h plan hplan e he
      intro e' he'
      unfold ExInv at he' ⊢
      refine ⟨clampInt_lower _ _ _, clampInt_upper _ _ _ ?_⟩
      omega
    | updateMeta activePlanId exerciseId patch =>
      intro plan hplan e he
      simp only [applyOp, updateExerciseMeta] at hplan
      refine plansInv_mapPlan _ _ _
        (fun exs hexs => mapEx_inv _ _ ?_ exs hexs) h plan hplan e he
      intro e' he'
      unfold ExInv at he' ⊢
      cases hp : patch.targetSets with
      | none =>
        simp only [hp]
        refine ⟨clampInt_lower _ _ _, clampInt_upper _ _ _ ?_⟩
        omega
      | some t =>
        simp only [hp]
        by_cases ht : t = 0
        · rw [if_pos ht]
          refine ⟨clampInt_lower _ _ _, clampInt_upper _ _ _ ?_⟩
          omega
        · rw [if_neg ht]
          refine ⟨clampInt_lower _ _ _, clampInt_upper _ _ _ ?_⟩
          have := clampInt_lower t 1 12
          omega
    | deleteExercise activePlanId exerciseId =>
      intro plan hplan e he
      simp only [applyOp, deleteExercise] at hplan
      refine plansInv_mapPlan _ _ _ ?_ h plan hplan e he
      intro exs hexs e' he'
      exact hexs e' (List.mem_filter.mp he').1
    | moveExercise activePlanId dragId targetId =>
      intro plan hplan e he
      simp only [applyOp, moveExercise] at hplan
      by_cases hdt : dragId = targetId
      · rw [if_pos hdt] at hplan
        exact h plan hplan e he
      · rw [if_neg hdt] at hplan
        refine plansInv_mapPlan _ _ _ ?_ h plan hplan e he
        intro exs hexs e' he'
        exact hexs e' ((moveInList_perm dragId targetId exs).mem_iff.mp he')
    | moveByOffset activePlanId exerciseId offset =>
      intro plan hplan e he
      simp only [applyOp, moveExerciseByOffset] at hplan
      refine plansInv_mapPlan _ _ _ ?_ h plan hplan e he
      intro exs hexs e' he'
      exact hexs e' ((moveByOffsetInList_perm exerciseId offset exs).mem_iff.mp he')
    | finish activePlanId newId dateIso =>
      intro plan hplan e he
      simp only [applyOp, finishTraining] at hplan
      cases hfind : s.plans.find? (fun plan => decide (plan.id = activePlanId)) with
      | none =>
        rw [hfind] at hplan
        exact h plan hplan e he
      | some activePlan =>
        rw [hfind] at hplan
        dsimp only at hplan
        by_cases hlen : activePlan.exercises.length = 0
        · rw [if_pos hlen] at hplan
          exact h plan hplan e he
        · rw [if_neg hlen] at hplan
          dsimp only at hplan
          refine plansInv_mapPlan _ _ _ ?_ h plan hplan e he
          intro exs hexs e' he'
          simp only [List.mem_map] at he'
          obtain ⟨e₀, he₀, rfl⟩ := he'
          exact ⟨le_refl 0, le_trans (hexs e₀ he₀).1 (hexs e₀ he₀).2⟩
  · intro input
    simp only [normalizeExercise]
    refine ⟨clampInt_lower _ _ _, clampInt_upper _ _ _ ?_⟩
    have := clampInt_lower (input.targetSets.getD 3) 1 12
    omega

/-- C3 witness: updateExerciseMeta shrinking targetSets from 3 to 1 while
completedSets is 2, applied to a concrete invariant-satisfying store. -/
theorem C3_sets_invariant_witness :
    StoreInv (applyOp (Op.updateMeta "p1" "e1" ⟨none, none, some 1⟩)
      ⟨[⟨"p1", "Push", [⟨"e1", "Bench", 20, none, 20, false, "", 3, 2⟩]⟩], []⟩) ∧
    (0 ≤ (normalizeExercise ⟨"e2", "Row", none, none, none, none, none, some 5, some 9⟩).completedSets ∧
      (normalizeExercise ⟨"e2", "Row", none, none, none, none, none, some 5, some 9⟩).completedSets ≤
        (normalizeExercise ⟨"e2", "Row", none, none, none, none, none, some 5, some 9⟩).targetSets) :=
  ⟨(C3_sets_invariant (Op.updateMeta "p1" "e1" ⟨none, none, some 1⟩)
      ⟨[⟨"p1", "Push", [⟨"e1", "Bench", 20, none, 20, false, "", 3, 2⟩]⟩], []⟩
      (by decide)).1,
    (C3_sets_invariant (Op.updateMeta "p1" "e1" ⟨none, none, some 1⟩)
      ⟨[⟨"p1", "Push", [⟨"e1", "Bench", 20, none, 20, false, "", 3, 2⟩]⟩], []⟩
      (by decide)).2 ⟨"e2", "Row", none, none, none, none, none, some 5, some 9⟩⟩

/-- C5: finishTraining on a present plan with at least one exercise prepends
exactly one history entry capturing the plan name and one frozen snapshot per
exercise, then resets every completedSets of that plan to 0 while leaving
currentWeight, bestWeight and previousWeight untouched (the record update
keeps every other field); it is a no-op when the plan is absent or has no
exercises. -/
theorem C5_finishTraining_snapshot_and_reset
    (s : Store) (activePlanId newId dateIso : String) :
    (s.plans.find? (fun plan => decide (plan.id = activePlanId)) = none →
      finishTraining activePlanId newId dateIso s = s) ∧
    (∀ p, s.plans.find? (fun plan => decide (plan.id = activePlanId)) = some p →
      p.exercises.length = 0 →
      finishTraining activePlanId newId dateIso s = s) ∧
    (∀ p, s.plans.find? (fun plan => decide (plan.id = activePlanId)) = some p →
      p.exercises.length ≠ 0 →
      ∃ entry,
        (finishTraining activePlanId newId dateIso s).history =
          entry :: s.history.take 39 ∧
        entry.planId = p.id ∧
        entry.planName = p.name ∧
        entry.exercises = p.exercises.map snapshotExercise ∧
        entry.exercises.length = p.exercises.length ∧
        (finishTraining activePlanId newId dateIso s).plans.length = s.plans.length ∧
        (∀ (i : ℕ) (q : TrainingPlan), s.plans[i]? = some q → ¬ q.id = p.id →
          (finishTraining activePlanId newId dateIso s).plans[i]? = some q) ∧
        (∀ (i : ℕ) (q : TrainingPlan), s.plans[i]? = some q → q.id = p.id →
          (finishTraining activePlanId newId dateIso s).plans[i]? = some
            { q with exercises := q.exercises.map fun e =>
                { e with completed := false, completedSets := 0 } })) := by
  refine ⟨?_, ?_, ?_⟩
  · intro hfind
    unfold finishTraining
    rw [hfind]
  · intro p hfind hlen
    unfold finishTraining
    rw [hfind]
    dsimp only
    rw [if_pos hlen]
  · intro p hfind hlen
    unfold finishTraining
    rw [hfind]
    dsimp only
    rw [if_neg hlen]
    refine ⟨⟨newId, dateIso, p.id, p.name, p.exercises.map snapshotExercise⟩,
      ?_, rfl, rfl, rfl, by simp, by simp [mapPlan_length], ?_, ?_⟩
    · dsimp only
      rw [List.take_succ_cons]
    · intro i q hq hqid
      dsimp only
      rw [mapPlan_getElem?, hq]
      simp [hqid]
    · intro i q hq hqid
      dsimp only
      rw [mapPlan_getElem?, hq]
      simp [hqid]

/-- C5 witness: the no-op branch on an absent plan id and the snapshot branch
on a concrete one-exercise plan. -/
theorem C5_finishTraining_snapshot_and_reset_witness :
    finishTraining "zz" "h1" "d1"
        ⟨[⟨"p1", "Push", [⟨"e1", "Bench", 20, some 18, 20, false, "", 3, 2⟩]⟩], []⟩ =
      ⟨[⟨"p1", "Push", [⟨"e1", "Bench", 20, some 18, 20, false, "", 3, 2⟩]⟩], []⟩ ∧
    (finishTraining "p1" "h1" "d1"
        ⟨[⟨"p1", "Push", [⟨"e1", "Bench", 20, some 18, 20, false, "", 3, 2⟩]⟩], []⟩).plans.length = 1 := by
  constructor
  · exact (C5_finishTraining_snapshot_and_reset
      ⟨[⟨"p1", "Push", [⟨"e1", "Bench", 20, some 18, 20, false, "", 3, 2⟩]⟩], []⟩
      "zz" "h1" "d1").1 rfl
  · obtain ⟨entry, -, -, -, -, -, hlen, -, -⟩ :=
      (C5_finishTraining_snapshot_and_reset
        ⟨[⟨"p1", "Push", [⟨"e1", "Bench", 20, some 18, 20, false, "", 3, 2⟩]⟩], []⟩
        "p1" "h1" "d1").2.2
        ⟨"p1", "Push", [⟨"e1", "Bench", 20, some 18, 20, false, "", 3, 2⟩]⟩ rfl (by decide)
    simpa using hlen

/-- C6: the isPr flag recorded at finish time equals "previousWeight present
and currentWeight >= bestWeight and currentWeight > previousWeight"; with
previousWeight 18, bestWeight 20, currentWeight 20 the flag is true, and with
currentWeight 19 below bestWeight 20 it is false. -/
theorem C6_isPr_characterisation (e : Exercise) (s : Store)
    (activePlanId newId dateIso : String) (p : TrainingPlan)
    (hfind : s.plans.find? (fun plan => decide (plan.id = activePlanId)) = some p)
    (hlen : p.exercises.length ≠ 0) :
    (isPr e = true ↔ ∃ prev, e.previousWeight = some prev ∧
      e.bestWeight ≤ e.currentWeight ∧ prev < e.currentWeight) ∧
    (∃ entry, (finishTraining activePlanId newId dateIso s).history.head? = some entry ∧
      entry.exercises = p.exercises.map snapshotExercise ∧
      ∀ e', (snapshotExercise e').isPr = isPr e') ∧
    isPr ⟨"e1", "Bench", 20, some 18, 20, false, "", 3, 0⟩ = true ∧
    isPr ⟨"e1", "Bench", 19, some 18, 20, false, "", 3, 0⟩ = false := by
  refine ⟨?_, ?_, ?_, ?_⟩
  · unfold isPr
    cases hprev : e.previousWeight with
    | none => simp
    | some prev => simp
  · unfold finishTraining
    rw [hfind]
    dsimp only
    rw [if_neg hlen]
    exact ⟨_, rfl, rfl, fun e' => rfl⟩
  · unfold isPr
    norm_num
  · unfold isPr
    norm_num

/-- C6 witness: the two concrete PR scenarios evaluated through the theorem
at a concrete store. -/
theorem C6_isPr_characterisation_witness :
    isPr ⟨"e1", "Bench", 20, some 18, 20, false, "", 3, 0⟩ = true ∧
    isPr ⟨"e1", "Bench", 19, some 18, 20, false, "", 3, 0⟩ = false := by
  have h := C6_isPr_characterisation
    ⟨"e1", "Bench", 20, some 18, 20, false, "", 3, 0⟩
    ⟨[⟨"p1", "Push", [⟨"e1", "Bench", 20, some 18, 20, false, "", 3, 0⟩]⟩], []⟩
    "p1" "h1" "d1"
    ⟨"p1", "Push", [⟨"e1", "Bench", 20, some 18, 20, false, "", 3, 0⟩]⟩
    rfl (by decide)
  exact ⟨h.2.2.1, h.2.2.2⟩

/-- C7 (amended): history is append-only and recency-ordered with a cap of 40
(not 50): every operation either leaves history unchanged or replaces it by a
fresh entry consed onto the old history truncated to 40 entries, so the new
entry sits at index 0, retained older entries keep their relative order (they
are a literal prefix of the old history) and no existing entry is modified;
finishing a workout on a present non-empty plan yields exactly
min(oldLength + 1, 40) entries. -/
theorem C7_history_append_only_cap40 (op : Op) (s : Store)
    (activePlanId newId dateIso : String) (p : TrainingPlan)
    (hfind : s.plans.find? (fun plan => decide (plan.id = activePlanId)) = some p)
    (hlen : p.exercises.length ≠ 0) :
    ((applyOp op s).history = s.history ∨
      ∃ entry, (applyOp op s).history = entry :: s.history.take 39) ∧
    (∃ entry, (finishTraining activePlanId newId dateIso s).history =
        entry :: s.history.take 39) ∧
    (finishTraining activePlanId newId dateIso s).history.length =
      min (s.history.length + 1) 40 := by
  refine ⟨?_, ?_, ?_⟩
  · cases op <;> try exact Or.inl rfl
    rename_i pid nid diso
    simp only [applyOp]
    unfold finishTraining
    cases hf : s.plans.find? (fun plan => decide (plan.id = pid)) with
    | none => exact Or.inl rfl
    | some q =>
      dsimp only
      by_cases hl : q.exercises.length = 0
      · rw [if_pos hl]
        exact Or.inl rfl
      · rw [if_neg hl]
        refine Or.inr ⟨⟨nid, diso, q.id, q.name, q.exercises.map snapshotExercise⟩, ?_⟩
        dsimp only
        rw [List.take_succ_cons]
  · unfold finishTraining
    rw [hfind]
    dsimp only
    rw [if_neg hlen]
    refine ⟨⟨newId, dateIso, p.id, p.name, p.exercises.map snapshotExercise⟩, ?_⟩
    dsimp only
    rw [List.take_succ_cons]
  · unfold finishTraining
    rw [hfind]
    dsimp only
    rw [if_neg hlen]
    dsimp only
    simp [List.length_take]
    omega

/-- C7 witness: the finish-branch length equation evaluated on a concrete
store with an empty history. -/
theorem C7_history_append_only_cap40_witness :
    (finishTraining "p1" "h1" "d1"
        ⟨[⟨"p1", "Push", [⟨"e1", "Bench", 20, none, 20, false, "", 3, 0⟩]⟩], []⟩).history.length =
      min ((⟨[⟨"p1", "Push", [⟨"e1", "Bench", 20, none, 20, false, "", 3, 0⟩]⟩],
        []⟩ : Store).history.length + 1) 40 :=
  (C7_history_append_only_cap40 (Op.deleteExercise "p1" "e1")
    ⟨[⟨"p1", "Push", [⟨"e1", "Bench", 20, none, 20, false, "", 3, 0⟩]⟩], []⟩
    "p1" "h1" "d1"
    ⟨"p1", "Push", [⟨"e1", "Bench", 20, none, 20, false, "", 3, 0⟩]⟩
    rfl (by decide)).2.2

/-- C7 counterexample: with 45 retained entries a cap of 50 would keep all 46
entries after an append, but the code keeps only 40. -/
theorem C7_counterexample_cap_is_not_50 :
    (finishTraining "p1" "h1" "d1"
        ⟨[⟨"p1", "Push", [⟨"e1", "Bench", 20, none, 20, false, "", 3, 0⟩]⟩],
          List.replicate 45 ⟨"h0", "d0", "p0", "P0", []⟩⟩).history.length = 40 ∧
    (List.replicate 45 (⟨"h0", "d0", "p0", "P0", []⟩ : TrainingHistoryEntry)).length + 1 = 46 := by
  constructor
  · decide
  · decide

theorem moveInList_absent_drag (dragId targetId : String) (exs : List Exercise)
    (h : exs.findIdx? (fun e => decide (e.id = dragId)) = none) :
    moveInList dragId targetId exs = exs := by
  unfold moveInList
  rw [h]

theorem moveInList_absent_target (dragId targetId : String) (exs : List Exercise)
    (h : exs.findIdx? (fun e => decide (e.id = targetId)) = none) :
    moveInList dragId targetId exs = exs := by
  unfold moveInList
  cases h1 : exs.findIdx? (fun e => decide (e.id = dragId)) <;> rw [h]

/-- C8: drag-and-drop moveExercise and the step variant moveExerciseByOffset
produce a permutation of the exercise list (length preserved, no element
dropped or duplicated), the dragged exercise lands at the anchor's position,
and both are no-ops when an involved id is absent, when the two ids are
equal, or when the offset move would cross a list boundary. -/
theorem C8_reorder_permutation (plans : List TrainingPlan)
    (activePlanId dragId targetId exerciseId : String) (offset : ℤ) :
    (dragId = targetId → moveExercise activePlanId dragId targetId plans = plans) ∧
    (∀ exs : List Exercise, (moveInList dragId targetId exs).Perm exs ∧
      (moveByOffsetInList exerciseId offset exs).Perm exs) ∧
    (∀ exs : List Exercise,
      exs.findIdx? (fun e => decide (e.id = dragId)) = none →
      moveInList dragId targetId exs = exs) ∧
    (∀ exs : List Exercise,
      exs.findIdx? (fun e => decide (e.id = targetId)) = none →
      moveInList dragId targetId exs = exs) ∧
    (∀ exs : List Exercise,
      exs.findIdx? (fun e => decide (e.id = exerciseId)) = none →
      moveByOffsetInList exerciseId offset exs = exs) ∧
    (∀ (exs : List Exercise) (index : ℕ),
      exs.findIdx? (fun e => decide (e.id = exerciseId)) = some index →
      ((index : ℤ) + offset < 0 ∨ (exs.length : ℤ) ≤ (index : ℤ) + offset) →
      moveByOffsetInList exerciseId offset exs = exs) ∧
    (∀ (exs : List Exercise) (fromIndex toIndex : ℕ) (moved : Exercise),
      exs.findIdx? (fun e => decide (e.id = dragId)) = some fromIndex →
      exs.findIdx? (fun e => decide (e.id = targetId)) = some toIndex →
      ¬ fromIndex = toIndex → exs[fromIndex]? = some moved →
      (moveInList dragId targetId exs)[toIndex]? = some moved) ∧
    (∀ (i : ℕ) (p : TrainingPlan), plans[i]? = some p →
      (∃ p', (moveExercise activePlanId dragId targetId plans)[i]? = some p' ∧
        p'.id = p.id ∧ p'.exercises.Perm p.exercises ∧
        p'.exercises.length = p.exercises.length) ∧
      (∃ p', (moveExerciseByOffset activePlanId exerciseId offset plans)[i]? = some p' ∧
        p'.id = p.id ∧ p'.exercises.Perm p.exercises ∧
        p'.exercises.length = p.exercises.length)) := by
  refine ⟨?_, ?_, ?_, ?_, ?_, ?_, ?_, ?_⟩
  · intro h
    unfold moveExercise
    rw [if_pos h]
  · intro exs
    exact ⟨moveInList_perm dragId targetId exs, moveByOffsetInList_perm exerciseId offset exs⟩
  · exact moveInList_absent_drag dragId targetId
  · exact moveInList_absent_target dragId targetId
  · intro exs h
    unfold moveByOffsetInList
    rw [h]
  · intro exs index hidx hbound
    unfold moveByOffsetInList
    rw [hidx]
    dsimp only
    rw [if_pos hbound]
  · intro exs fromIndex toIndex moved hfrom hto hne hmoved
    unfold moveInList
    rw [hfrom, hto]
    dsimp only
    rw [if_neg hne, hmoved]
    obtain ⟨hfrom_lt, -⟩ := List.findIdx?_eq_some_iff_findIdx_eq.mp hfrom
    obtain ⟨hto_lt, -⟩ := List.findIdx?_eq_some_iff_findIdx_eq.mp hto
    refine insertIdx_getElem?_self _ _ _ ?_
    rw [List.length_eraseIdx]
    rw [if_pos hfrom_lt]
    omega
  · intro i p hp
    constructor
    · by_cases hdt : dragId = targetId
      · unfold moveExercise
        rw [if_pos hdt, hp]
        exact ⟨p, rfl, rfl, List.Perm.refl _, rfl⟩
      · unfold moveExercise
        rw [if_neg hdt, mapPlan_getElem?, hp]
        by_cases hid : p.id = activePlanId
        · rw [Option.map_some', if_pos hid]
          exact ⟨_, rfl, rfl, moveInList_perm dragId targetId p.exercises,
            (moveInList_perm dragId targetId p.exercises).length_eq⟩
        · rw [Option.map_some', if_neg hid]
          exact ⟨p, rfl, rfl, List.Perm.refl _, rfl⟩
    · unfold moveExerciseByOffset
      rw [mapPlan_getElem?, hp]
      by_cases hid : p.id = activePlanId
      · rw [Option.map_some', if_pos hid]
        exact ⟨_, rfl, rfl, moveByOffsetInList_perm exerciseId offset p.exercises,
          (moveByOffsetInList_perm exerciseId offset p.exercises).length_eq⟩
      · rw [Option.map_some', if_neg hid]
        exact ⟨p, rfl, rfl, List.Perm.refl _, rfl⟩

/-- C8 witness: on a concrete three-exercise list, dragging e1 onto e3 lands
e1 at index 2, and moving e3 down by offset 1 is a boundary no-op. -/
theorem C8_reorder_permutation_witness :
    (moveInList "e1" "e3"
      [⟨"e1", "A", 1, none, 1, false, "", 3, 0⟩,
       ⟨"e2", "B", 2, none, 2, false, "", 3, 0⟩,
       ⟨"e3", "C", 3, none, 3, false, "", 3, 0⟩])[2]? =
      some ⟨"e1", "A", 1, none, 1, false, "", 3, 0⟩ ∧
    moveByOffsetInList "e3" 1
      [⟨"e1", "A", 1, none, 1, false, "", 3, 0⟩,
       ⟨"e2", "B", 2, none, 2, false, "", 3, 0⟩,
       ⟨"e3", "C", 3, none, 3, false, "", 3, 0⟩] =
      [⟨"e1", "A", 1, none, 1, false, "", 3, 0⟩,
       ⟨"e2", "B", 2, none, 2, false, "", 3, 0⟩,
       ⟨"e3", "C", 3, none, 3, false, "", 3, 0⟩] := by
  have h := C8_reorder_permutation [] "p1" "e1" "e3" "e3" 1
  refine ⟨?_, ?_⟩
  · exact h.2.2.2.2.2.2.1
      [⟨"e1", "A", 1, none, 1, false, "", 3, 0⟩,
       ⟨"e2", "B", 2, none, 2, false, "", 3, 0⟩,
       ⟨"e3", "C", 3, none, 3, false, "", 3, 0⟩]
      0 2 ⟨"e1", "A", 1, none, 1, false, "", 3, 0⟩ rfl rfl (by decide) rfl
  · exact h.2.2.2.2.2.1
      [⟨"e1", "A", 1, none, 1, false, "", 3, 0⟩,
       ⟨"e2", "B", 2, none, 2, false, "", 3, 0⟩,
       ⟨"e3", "C", 3, none, 3, false, "", 3, 0⟩]
      2 rfl (by decide)

theorem plansPred_mapPlan (P : Exercise → Prop) (activePlanId : String)
    (f : List Exercise → List Exercise) (plans : List TrainingPlan)
    (hf : ∀ exs, (∀ e ∈ exs, P e) → ∀ e ∈ f exs, P e)
    (h : ∀ p ∈ plans, ∀ e ∈ p.exercises, P e) :
    ∀ p ∈ mapPlan activePlanId f plans, ∀ e ∈ p.exercises, P e := by
  intro plan hplan e he
  simp only [mapPlan, List.mem_map] at hplan
  obtain ⟨q, hq, rfl⟩ := hplan
  by_cases hid : q.id = activePlanId
  · rw [if_pos hid] at he
    exact hf q.exercises (h q hq) e he
  · rw [if_neg hid] at he
    exact h q hq e he

theorem mapEx_pred (P : Exercise → Prop) (exerciseId : String) (f : Exercise → Exercise)
    (hf : ∀ e, P e → P (f e)) (exs : List Exercise)
    (h : ∀ e ∈ exs, P e) : ∀ e ∈ mapEx exerciseId f exs, P e := by
  intro e' he'
  simp only [mapEx, List.mem_map] at he'
  obtain ⟨e, he, rfl⟩ := he'
  by_cases hid : e.id = exerciseId
  · simpa [hid] using hf e (h e he)
  · simpa [hid] using h e he

theorem exBest_applyWeight (nw : ℚ) (e : Exercise) (h : ExBest e) :
    ExBest (applyWeight nw e) := by
  by_cases hc : e.currentWeight = nw
  · simpa [applyWeight, hc, ExBest] using h
  · simp [applyWeight, hc, ExBest, le_max_right]

theorem applyWeight_best_mono (nw : ℚ) (e : Exercise) :
    e.bestWeight ≤ (applyWeight nw e).bestWeight := by
  by_cases hc : e.currentWeight = nw
  · simp [applyWeight, hc]
  · simp [applyWeight, hc, le_max_left]

theorem mapEx_best_mono (exerciseId : String) (g : Exercise → Exercise)
    (hg : ∀ e, (g e).id = e.id ∧ e.bestWeight ≤ (g e).bestWeight)
    (exs : List Exercise) :
    ∀ e' ∈ mapEx exerciseId g exs,
      ∃ e ∈ exs, e.id = e'.id ∧ e.bestWeight ≤ e'.bestWeight := by
  intro e' he'
  simp only [mapEx, List.mem_map] at he'
  obtain ⟨e, he, rfl⟩ := he'
  by_cases hid : e.id = exerciseId
  · rw [if_pos hid]
    exact ⟨e, he, (hg e).1.symm, (hg e).2⟩
  · rw [if_neg hid]
    exact ⟨e, he, rfl, le_refl _⟩

theorem mapPlan_best_mono (activePlanId : String) (f : List Exercise → List Exercise)
    (plans : List TrainingPlan)
    (hf : ∀ exs, ∀ e' ∈ f exs,
      (∃ e ∈ exs, e.id = e'.id ∧ e.bestWeight ≤ e'.bestWeight) ∨
      (e'.previousWeight = none ∧ e'.bestWeight = e'.currentWeight)) :
    ∀ p' ∈ mapPlan activePlanId f plans, ∀ e' ∈ p'.exercises,
      (∃ p ∈ plans, ∃ e ∈ p.exercises, e.id = e'.id ∧ e.bestWeight ≤ e'.bestWeight) ∨
      (e'.previousWeight = none ∧ e'.bestWeight = e'.currentWeight) := by
  intro p' hp' e' he'
  simp only [mapPlan, List.mem_map] at hp'
  obtain ⟨q, hq, rfl⟩ := hp'
  by_cases hid : q.id = activePlanId
  · rw [if_pos hid] at he'
    rcases hf q.exercises e' he' with ⟨e, he, hide, hb⟩ | hfresh
    · exact Or.inl ⟨q, hq, e, he, hide, hb⟩
    · exact Or.inr hfresh
  · rw [if_neg hid] at he'
    exact Or.inl ⟨q, hq, e', he', rfl, le_refl _⟩

/-- C9 (amended): currentWeight <= bestWeight is preserved by every store
operation and bestWeight never decreases for any surviving exercise (a fresh
exercise starts with bestWeight = currentWeight and no previousWeight);
addExercise establishes currentWeight = bestWeight = round1(startWeight);
normalizeExercise defaults an absent bestWeight to currentWeight and
preserves the invariant when the stored record already satisfies it, but it
does not enforce bestWeight >= currentWeight on arbitrary stored data. -/
theorem C9_best_weight_monotone_and_dominant (op : Op) (s : Store) :
    (StoreBest s → StoreBest (applyOp op s)) ∧
    (∀ p' ∈ (applyOp op s).plans, ∀ e' ∈ p'.exercises,
      (∃ p ∈ s.plans, ∃ e ∈ p.exercises, e.id = e'.id ∧ e.bestWeight ≤ e'.bestWeight) ∨
      (e'.previousWeight = none ∧ e'.bestWeight = e'.currentWeight)) ∧
    (∀ (plans : List TrainingPlan) (activePlanId newId rawName : String) (w : ℚ)
      (i : ℕ) (p : TrainingPlan),
      ¬ trimString rawName = "" → ¬ w < 0 → plans[i]? = some p → p.id = activePlanId →
      (addExercise activePlanId newId rawName w plans)[i]? = some
        { p with exercises := p.exercises ++
            [⟨newId, trimString rawName, round1 w, none, round1 w, false, "", 3, 0⟩] }) ∧
    (∀ input : StoredExercise, input.bestWeight = none →
      (normalizeExercise input).bestWeight = (normalizeExercise input).currentWeight) ∧
    (∀ (input : StoredExercise) (b : ℚ), input.bestWeight = some b →
      input.currentWeight.getD 0 ≤ b → ExBest (normalizeExercise input)) := by
  refine ⟨?_, ?_, ?_, ?_, ?_⟩
  · intro h
    cases op with
    | createPlan newId rawName =>
      intro plan hplan e he
      simp only [applyOp, createPlan] at hplan
      by_cases hname : trimString rawName = ""
      · rw [if_pos hname] at hplan
        exact h plan hplan e he
      · rw [if_neg hname] at hplan
        rcases List.mem_cons.mp hplan with hplan | hplan
        · subst hplan
          simp at he
        · exact h plan hplan e he
    | renamePlan activePlanId rawName =>
      intro plan hplan e he
      simp only [applyOp, renameActivePlan] at hplan
      by_cases hname : trimString rawName = ""
      · rw [if_pos hname] at hplan
        exact h plan hplan e he
      · rw [if_neg hname] at hplan
        simp only [List.mem_map] at hplan
        obtain ⟨q, hq, rfl⟩ := hplan
        by_cases hid : q.id = activePlanId
        · rw [if_pos hid] at he
          exact h q hq e he
        · rw [if_neg hid] at he
          exact h q hq e he
    | deletePlan activePlanId =>
      intro plan hplan e he
      simp only [applyOp, deleteActivePlan] at hplan
      exact h plan (List.mem_filter.mp hplan).1 e he
    | addExercise activePlanId newId rawName parsedWeight =>
      intro plan hplan e he
      simp only [applyOp, addExercise] at hplan
      by_cases hguard : trimString rawName = "" ∨ parsedWeight < 0
      · rw [if_pos hguard] at hplan
        exact h plan hplan e he
      · rw [if_neg hguard] at hplan
        refine plansPred_mapPlan ExBest _ _ _ ?_ h plan hplan e he
        intro exs hexs e' he'
        rcases List.mem_append.mp he' with he' | he'
        · exact hexs e' he'
        · rcases List.mem_singleton.mp he' with rfl
          exact le_refl _
    | setWeight activePlanId exerciseId value =>
      intro plan hplan e he
      simp only [applyOp, updateExerciseWeight] at hplan
      by_cases hval : value < 0
      · rw [if_pos hval] at hplan
        exact h plan hplan e he
      · rw [if_neg hval] at hplan
        exact plansPred_mapPlan ExBest _ _ _
          (fun exs hexs => mapEx_pred ExBest _ _ (exBest_applyWeight (round1 value)) exs hexs)
          h plan hplan e he
    | adjustWeight activePlanId exerciseId delta =>
      intro plan hplan e he
      simp only [applyOp, changeExerciseByDelta] at hplan
      exact plansPred_mapPlan ExBest _ _ _
        (fun exs hexs => mapEx_pred ExBest _ _
          (fun e' he' => exBest_applyWeight _ e' he') exs hexs)
        h plan hplan e he
    | setCompleted activePlanId exerciseId completed =>
      intro plan hplan e he
      simp only [applyOp, setExerciseCompleted] at hplan
      refine plansPred_mapPlan ExBest _ _ _
        (fun exs hexs => mapEx_pred ExBest _ _ ?_ exs hexs) h plan hplan e he
      intro e' he'
      simpa [ExBest] using he'
    | setSets activePlanId exerciseId nextCompletedSets =>
      intro plan hplan e he
      simp only [applyOp, setExerciseSets] at hplan
      refine plansPred_mapPlan ExBest _ _ _
        (fun exs hexs => mapEx_pred ExBest _ _ ?_ exs hexs) h plan hplan e he
      intro e' he'
      simpa [ExBest] using he'
    | updateMeta activePlanId exerciseId patch =>
      intro plan hplan e he
      simp only [applyOp, updateExerciseMeta] at hplan
      refine plansPred_mapPlan ExBest _ _ _
        (fun exs hexs => mapEx_pred ExBest _ _ ?_ exs hexs) h plan hplan e he
      intro e' he'
      simpa [ExBest] using he'
    | deleteExercise activePlanId exerciseId =>
      intro plan hplan e he
      simp only [applyOp, deleteExercise] at hplan
      refine plansPred_mapPlan ExBest _ _ _ ?_ h plan hplan e he
      intro exs hexs e' he'
      exact hexs e' (List.mem_filter.mp he').1
    | moveExercise activePlanId dragId targetId =>
      intro plan hplan e he
      simp only [applyOp, moveExercise] at hplan
      by_cases hdt : dragId = targetId
      · rw [if_pos hdt] at hplan
        exact h plan hplan e he
      · rw [if_neg hdt] at hplan
        refine plansPred_mapPlan ExBest _ _ _ ?_ h plan hplan e he
        intro exs hexs e' he'
        exact hexs e' ((moveInList_perm dragId targetId exs).mem_iff.mp he')
    | moveByOffset activePlanId exerciseId offset =>
      intro plan hplan e he
      simp only [applyOp, moveExerciseByOffset] at hplan
      refine plansPred_mapPlan ExBest _ _ _ ?_ h plan hplan e he
      intro exs hexs e' he'
      exact hexs e' ((moveByOffsetInList_perm exerciseId offset exs).mem_iff.mp he')
    | finish activePlanId newId dateIso =>
      intro plan hplan e he
      simp only [applyOp, finishTraining] at hplan
      cases hfind : s.plans.find? (fun plan => decide (plan.id = activePlanId)) with
      | none =>
        rw [hfind] at hplan
        exact h plan hplan e he
      | some activePlan =>
        rw [hfind] at hplan
        dsimp only at hplan
        by_cases hlen : activePlan.exercises.length = 0
        · rw [if_pos hlen] at hplan
          exact h plan hplan e he
        · rw [if_neg hlen] at hplan
          dsimp only at hplan
          refine plansPred_mapPlan ExBest _ _ _ ?_ h plan hplan e he
          intro exs hexs e' he'
          simp only [List.mem_map] at he'
          obtain ⟨e₀, he₀, rfl⟩ := he'
          simpa [ExBest] using hexs e₀ he₀
  · cases op with
    | createPlan newId rawName =>
      intro p' hp' e' he'
      simp only [applyOp, createPlan] at hp'
      by_cases hname : trimString rawName = ""
      · rw [if_pos hname] at hp'
        exact Or.inl ⟨p', hp', e', he', rfl, le_refl _⟩
      · rw [if_neg hname] at hp'
        rcases List.mem_cons.mp hp' with hp' | hp'
        · subst hp'
          simp at he'
        · exact Or.inl ⟨p', hp', e', he', rfl, le_refl _⟩
    | renamePlan activePlanId rawName =>
      intro p' hp' e' he'
      simp only [applyOp, renameActivePlan] at hp'
      by_cases hname : trimString rawName = ""
      · rw [if_pos hname] at hp'
        exact Or.inl ⟨p', hp', e', he', rfl, le_refl _⟩
      · rw [if_neg hname] at hp'
        simp only [List.mem_map] at hp'
        obtain ⟨q, hq, rfl⟩ := hp'
        by_cases hid : q.id = activePlanId
        · rw [if_pos hid] at he'
          exact Or.inl ⟨q, hq, e', he', rfl, le_refl _⟩
        · rw [if_neg hid] at he'
          exact Or.inl ⟨q, hq, e', he', rfl, le_refl _⟩
    | deletePlan activePlanId =>
      intro p' hp' e' he'
      simp only [applyOp, deleteActivePlan] at hp'
      exact Or.inl ⟨p', (List.mem_filter.mp hp').1, e', he', rfl, le_refl _⟩
    | addExercise activePlanId newId rawName parsedWeight =>
      intro p' hp' e' he'
      simp only [applyOp, addExercise] at hp'
      by_cases hguard : trimString rawName = "" ∨ parsedWeight < 0
      · rw [if_pos hguard] at hp'
        exact Or.inl ⟨p', hp', e', he', rfl, le_refl _⟩
      · rw [if_neg hguard] at hp'
        refine mapPlan_best_mono _ _ _ ?_ p' hp' e' he'
        intro exs e'' he''
        rcases List.mem_append.mp he'' with he'' | he''
        · exact Or.inl ⟨e'', he'', rfl, le_refl _⟩
        · rcases List.mem_singleton.mp he'' with rfl
          exact Or.inr ⟨rfl, rfl⟩
    | setWeight activePlanId exerciseId value =>
      intro p' hp' e' he'
      simp only [applyOp, updateExerciseWeight] at hp'
      by_cases hval : value < 0
      · rw [if_pos hval] at hp'
        exact Or.inl ⟨p', hp', e', he', rfl, le_refl _⟩
      · rw [if_neg hval] at hp'
        refine mapPlan_best_mono _ _ _ ?_ p' hp' e' he'
        intro exs e'' he''
        exact Or.inl (mapEx_best_mono _ _
          (fun e => ⟨applyWeight_id _ e, applyWeight_best_mono _ e⟩) exs e'' he'')
    | adjustWeight activePlanId exerciseId delta =>
      intro p' hp' e' he'
      simp only [applyOp, changeExerciseByDelta] at hp'
      refine mapPlan_best_mono _ _ _ ?_ p' hp' e' he'
      intro exs e'' he''
      exact Or.inl (mapEx_best_mono _ _
        (fun e => ⟨applyWeight_id _ e, applyWeight_best_mono _ e⟩) exs e'' he'')
    | setCompleted activePlanId exerciseId completed =>
      intro p' hp' e' he'
      simp only [applyOp, setExerciseCompleted] at hp'
      refine mapPlan_best_mono _ _ _ ?_ p' hp' e' he'
      intro exs e'' he''
      refine Or.inl (mapEx_best_mono _ _ ?_ exs e'' he'')
      intro e
      exact ⟨rfl, le_refl _⟩
    | setSets activePlanId exerciseId nextCompletedSets =>
      intro p' hp' e' he'
      simp only [applyOp, setExerciseSets] at hp'
      refine mapPlan_best_mono _ _ _ ?_ p' hp' e' he'
      intro exs e'' he''
      refine Or.inl (mapEx_best_mono _ _ ?_ exs e'' he'')
      intro e
      exact ⟨rfl, le_refl _⟩
    | updateMeta activePlanId exerciseId patch =>
      intro p' hp' e' he'
      simp only [applyOp, updateExerciseMeta] at hp'
      refine mapPlan_best_mono _ _ _ ?_ p' hp' e' he'
      intro exs e'' he''
      refine Or.inl (mapEx_best_mono _ _ ?_ exs e'' he'')
      intro e
      exact ⟨rfl, le_refl _⟩
    | deleteExercise activePlanId exerciseId =>
      intro p' hp' e' he'
      simp only [applyOp, deleteExercise] at hp'
      refine mapPlan_best_mono _ _ _ ?_ p' hp' e' he'
      intro exs e'' he''
      exact Or.inl ⟨e'', (List.mem_filter.mp he'').1, rfl, le_refl _⟩
    | moveExercise activePlanId dragId targetId =>
      intro p' hp' e' he'
      simp only [applyOp, moveExercise] at hp'
      by_cases hdt : dragId = targetId
      · rw [if_pos hdt] at hp'
        exact Or.inl ⟨p', hp', e', he', rfl, le_refl _⟩
      · rw [if_neg hdt] at hp'
        refine mapPlan_best_mono _ _ _ ?_ p' hp' e' he'
        intro exs e'' he''
        exact Or.inl ⟨e'', (moveInList_perm dragId targetId exs).mem_iff.mp he'',
          rfl, le_refl _⟩
    | moveByOffset activePlanId exerciseId offset =>
      intro p' hp' e' he'
      simp only [applyOp, moveExerciseByOffset] at hp'
      refine mapPlan_best_mono _ _ _ ?_ p' hp' e' he'
      intro exs e'' he''
      exact Or.inl ⟨e'', (moveByOffsetInList_perm exerciseId offset exs).mem_iff.mp he'',
        rfl, le_refl _⟩
    | finish activePlanId newId dateIso =>
      intro p' hp' e' he'
      simp only [applyOp, finishTraining] at hp'
      cases hfind : s.plans.find? (fun plan => decide (plan.id = activePlanId)) with
      | none =>
        rw [hfind] at hp'
        exact Or.inl ⟨p', hp', e', he', rfl, le_refl _⟩
      | some activePlan =>
        rw [hfind] at hp'
        dsimp only at hp'
        by_cases hlen : activePlan.exercises.length = 0
        · rw [if_pos hlen] at hp'
          exact Or.inl ⟨p', hp', e', he', rfl, le_refl _⟩
        · rw [if_neg hlen] at hp'
          dsimp only at hp'
          refine mapPlan_best_mono _ _ _ ?_ p' hp' e' he'
          intro exs e'' he''
          simp only [List.mem_map] at he''
          obtain ⟨e₀, he₀, rfl⟩ := he''
          exact Or.inl ⟨e₀, he₀, rfl, le_refl _⟩
  · intro plans activePlanId newId rawName w i p hname hw hp hpid
    unfold addExercise
    rw [if_neg (not_or.mpr ⟨hname, hw⟩)]
    rw [mapPlan_getElem?, hp]
    simp [hpid]
  · intro input hb
    simp [normalizeExercise, hb]
  · intro input b hb hle
    simp only [normalizeExercise, ExBest, hb]
    simpa using hle

/-- C9 witness: invariant preservation on a concrete store, the fresh
exercise of addExercise, and conditional preservation through normalization. -/
theorem C9_best_weight_monotone_and_dominant_witness :
    StoreBest (applyOp (Op.setWeight "p1" "e1" 25)
      ⟨[⟨"p1", "Push", [⟨"e1", "Bench", 20, none, 20, false, "", 3, 0⟩]⟩], []⟩) ∧
    (addExercise "p1" "e9" "Row" 30
        [⟨"p1", "Push", [⟨"e1", "Bench", 20, none, 20, false, "", 3, 0⟩]⟩])[0]? = some
      ⟨"p1", "Push",
        [⟨"e1", "Bench", 20, none, 20, false, "", 3, 0⟩] ++
          [⟨"e9", "Row", round1 30, none, round1 30, false, "", 3, 0⟩]⟩ ∧
    ExBest (normalizeExercise ⟨"e2", "B", some 10, none, some 12, none, none, none, none⟩) := by
  have h := C9_best_weight_monotone_and_dominant (Op.setWeight "p1" "e1" 25)
    ⟨[⟨"p1", "Push", [⟨"e1", "Bench", 20, none, 20, false, "", 3, 0⟩]⟩], []⟩
  refine ⟨?_, ?_, ?_⟩
  · refine h.1 ?_
    intro p hp e he
    simp only [List.mem_singleton] at hp
    subst hp
    simp only [List.mem_singleton] at he
    subst he
    exact le_refl _
  · exact h.2.2.1
      [⟨"p1", "Push", [⟨"e1", "Bench", 20, none, 20, false, "", 3, 0⟩]⟩]
      "p1" "e9" "Row" 30 0
      ⟨"p1", "Push", [⟨"e1", "Bench", 20, none, 20, false, "", 3, 0⟩]⟩
      (by decide) (by norm_num) rfl rfl
  · exact h.2.2.2.2 ⟨"e2", "B", some 10, none, some 12, none, none, none, none⟩ 12 rfl
      (by norm_num)

/-- C9 counterexample: a stored record with bestWeight 5 below currentWeight
10 passes normalizeExercise unrepaired, so the claimed invariant fails for
states reloaded and normalized from storage. -/
theorem C9_counterexample_normalize_no_enforcement :
    (normalizeExercise ⟨"e1", "Bench", some 10, none, some 5, none, none, none, none⟩).bestWeight = 5 ∧
    (normalizeExercise ⟨"e1", "Bench", some 10, none, some 5, none, none, none, none⟩).currentWeight = 10 ∧
    ¬ ExBest (normalizeExercise ⟨"e1", "Bench", some 10, none, some 5, none, none, none, none⟩) := by
  refine ⟨?_, ?_, ?_⟩
  · simp [normalizeExercise]
  · simp [normalizeExercise]
  · simp only [normalizeExercise, ExBest]
    norm_num

theorem frame_conclusions (activePlanId exerciseId : String)
    (f : List Exercise → List Exercise) (plans : List TrainingPlan)
    (hf : ∀ exs, (f exs).filter (fun e => decide (¬ e.id = exerciseId)) =
      exs.filter (fun e => decide (¬ e.id = exerciseId))) :
    (mapPlan activePlanId f plans).length = plans.length ∧
    (∀ (i : ℕ) (p : TrainingPlan), plans[i]? = some p → ¬ p.id = activePlanId →
      (mapPlan activePlanId f plans)[i]? = some p) ∧
    (∀ (i : ℕ) (p p' : TrainingPlan), plans[i]? = some p →
      (mapPlan activePlanId f plans)[i]? = some p' →
      p'.id = p.id ∧ p'.name = p.name ∧
      p'.exercises.filter (fun e => decide (¬ e.id = exerciseId)) =
        p.exercises.filter (fun e => decide (¬ e.id = exerciseId))) := by
  refine ⟨mapPlan_length _ _ _, ?_, ?_⟩
  · intro i p hp hpid
    rw [mapPlan_getElem?, hp, Option.map_some', if_neg hpid]
  · intro i p p' hp hp'
    rw [mapPlan_getElem?, hp, Option.map_some'] at hp'
    have hp'' := Option.some.inj hp'
    by_cases hid : p.id = activePlanId
    · rw [if_pos hid] at hp''
      subst hp''
      exact ⟨rfl, rfl, hf p.exercises⟩
    · rw [if_neg hid] at hp''
      subst hp''
      exact ⟨rfl, rfl, rfl⟩

/-- C10: each single-exercise operation (setExerciseWeight,
adjustExerciseWeight, setCompletedSets, updateExerciseMeta, deleteExercise)
leaves the history untouched, preserves the number of plans, leaves every
plan other than the targeted one unchanged, and within the targeted plan
leaves the sublist of exercises with a different id unchanged (same elements,
same relative order). -/
theorem C10_frame_single_exercise_ops (op : Op) (s : Store)
    (activePlanId exerciseId : String)
    (hop : (∃ v, op = Op.setWeight activePlanId exerciseId v) ∨
      (∃ d, op = Op.adjustWeight activePlanId exerciseId d) ∨
      (∃ n, op = Op.setSets activePlanId exerciseId n) ∨
      (∃ patch, op = Op.updateMeta activePlanId exerciseId patch) ∨
      op = Op.deleteExercise activePlanId exerciseId) :
    (applyOp op s).history = s.history ∧
    (applyOp op s).plans.length = s.plans.length ∧
    (∀ (i : ℕ) (p : TrainingPlan), s.plans[i]? = some p → ¬ p.id = activePlanId →
      (applyOp op s).plans[i]? = some p) ∧
    (∀ (i : ℕ) (p p' : TrainingPlan), s.plans[i]? = some p →
      (applyOp op s).plans[i]? = some p' →
      p'.id = p.id ∧ p'.name = p.name ∧
      p'.exercises.filter (fun e => decide (¬ e.id = exerciseId)) =
        p.exercises.filter (fun e => decide (¬ e.id = exerciseId))) := by
  rcases hop with ⟨v, rfl⟩ | ⟨d, rfl⟩ | ⟨n, rfl⟩ | ⟨patch, rfl⟩ | rfl
  · refine ⟨rfl, ?_⟩
    simp only [applyOp, updateExerciseWeight]
    by_cases hval : v < 0
    · rw [if_pos hval]
      refine ⟨rfl, fun i p hp _ => hp, ?_⟩
      intro i p p' hp hp'
      rw [hp] at hp'
      cases Option.some.inj hp'
      exact ⟨rfl, rfl, rfl⟩
    · rw [if_neg hval]
      exact frame_conclusions activePlanId exerciseId _ s.plans
        (mapEx_filter_ne exerciseId _ (applyWeight_id (round1 v)))
  · refine ⟨rfl, ?_⟩
    simp only [applyOp, changeExerciseByDelta]
    exact frame_conclusions activePlanId exerciseId _ s.plans
      (mapEx_filter_ne exerciseId _
        (fun e => applyWeight_id (clampWeight (round1 (e.currentWeight + d))) e))
  · refine ⟨rfl, ?_⟩
    simp only [applyOp, setExerciseSets]
    refine frame_conclusions activePlanId exerciseId _ s.plans ?_
    refine mapEx_filter_ne exerciseId _ ?_
    intro e
    rfl
  · refine ⟨rfl, ?_⟩
    simp only [applyOp, updateExerciseMeta]
    refine frame_conclusions activePlanId exerciseId _ s.plans ?_
    refine mapEx_filter_ne exerciseId _ ?_
    intro e
    rfl
  · refine ⟨rfl, ?_⟩
    simp only [applyOp, deleteExercise]
    refine frame_conclusions activePlanId exerciseId _ s.plans ?_
    intro exs
    rw [List.filter_filter]
    simp

/-- C10 witness: a setExerciseWeight on plan p1 leaves the sibling plan p2
and the history untouched on a concrete two-plan store. -/
theorem C10_frame_single_exercise_ops_witness :
    (applyOp (Op.setWeight "p1" "e1" 25)
      ⟨[⟨"p1", "Push", [⟨"e1", "Bench", 20, none, 20, false, "", 3, 0⟩]⟩,
        ⟨"p2", "Pull", [⟨"e2", "Row", 30, none, 30, false, "", 3, 0⟩]⟩], []⟩).history = [] ∧
    (applyOp (Op.setWeight "p1" "e1" 25)
      ⟨[⟨"p1", "Push", [⟨"e1", "Bench", 20, none, 20, false, "", 3, 0⟩]⟩,
        ⟨"p2", "Pull", [⟨"e2", "Row", 30, none, 30, false, "", 3, 0⟩]⟩], []⟩).plans.length = 2 ∧
    (applyOp (Op.setWeight "p1" "e1" 25)
      ⟨[⟨"p1", "Push", [⟨"e1", "Bench", 20, none, 20, false, "", 3, 0⟩]⟩,
        ⟨"p2", "Pull", [⟨"e2", "Row", 30, none, 30, false, "", 3, 0⟩]⟩], []⟩).plans[1]? =
      some ⟨"p2", "Pull", [⟨"e2", "Row", 30, none, 30, false, "", 3, 0⟩]⟩ := by
  have h := C10_frame_single_exercise_ops (Op.setWeight "p1" "e1" 25)
    ⟨[⟨"p1", "Push", [⟨"e1", "Bench", 20, none, 20, false, "", 3, 0⟩]⟩,
      ⟨"p2", "Pull", [⟨"e2", "Row", 30, none, 30, false, "", 3, 0⟩]⟩], []⟩
    "p1" "e1" (Or.inl ⟨25, rfl⟩)
  exact ⟨h.1, h.2.1, h.2.2.1 1
    ⟨"p2", "Pull", [⟨"e2", "Row", 30, none, 30, false, "", 3, 0⟩]⟩ rfl (by decide)⟩
